import Mathlib

/-!
Verification of `scrape_cricinfo_player.py` against its natural-language
specification.

The program is a linear fetch / parse / normalize / export pipeline.  We give a
shallow embedding: Python strings become `List Char`, pandas data frames become
a header list plus a list of rows of cells, and the external libraries
(`requests`, `pandas.read_html`, `BeautifulSoup`) are abstracted as oracle
functions passed explicitly.  All definitions are translated from the source
file; definitions whose names end in `FromClaim` restate the specification's
wording, to be compared against the code-derived definitions.
-/

set_option maxRecDepth 20000
set_option synthInstance.maxSize 512

/-- Python strings are modelled as lists of characters. -/
abbrev PyStr := List Char

/-- Convert a Lean string literal into the `PyStr` model. -/
def pyStr (s : String) : PyStr := s.data

/-- The decimal digit character for `d < 10`; mirrors how Python renders one
decimal digit of an integer. -/
def digitChar : Nat → Char
  | 0 => '0' | 1 => '1' | 2 => '2' | 3 => '3' | 4 => '4'
  | 5 => '5' | 6 => '6' | 7 => '7' | 8 => '8' | _ => '9'

/-- Numeric value of a decimal digit character (inverse of `digitChar`). -/
def digitVal : Char → Nat
  | '0' => 0 | '1' => 1 | '2' => 2 | '3' => 3 | '4' => 4
  | '5' => 5 | '6' => 6 | '7' => 7 | '8' => 8 | _ => 9

/-- Fuelled decimal rendering of a natural number (most significant digit
first); the fuel makes the definition structurally recursive so that it
reduces inside `decide`. -/
def natDigitsAux : Nat → Nat → List Char
  | 0, _ => []
  | fuel + 1, n =>
    if n < 10 then [digitChar n]
    else natDigitsAux fuel (n / 10) ++ [digitChar (n % 10)]

/-- Decimal rendering of a natural number, as Python `str` produces for a
non-negative `int`. -/
def natDigits (n : Nat) : PyStr := natDigitsAux (n + 1) n

/-- Decimal rendering of a Python `int`, including the sign. -/
def intToDecimal (i : Int) : PyStr :=
  if i < 0 then '-' :: natDigits (-i).toNat else natDigits i.toNat

/-- Value of a decimal digit string (used to show `natDigits` is injective). -/
def digitsVal (l : List Char) : Nat := l.foldl (fun a c => 10 * a + digitVal c) 0

/-- Python `str.strip` whitespace set (ASCII part). -/
def pyWhitespace (c : Char) : Bool :=
  c == ' ' || c == '\t' || c == '\n' || c == '\r' || c == '\x0b' || c == '\x0c'

/-- Python `s.strip()`: remove leading and trailing whitespace. -/
def pyStrip (s : PyStr) : PyStr :=
  ((s.dropWhile pyWhitespace).reverse.dropWhile pyWhitespace).reverse

/-- Characters the sanitizer keeps: the regex class `[a-zA-Z0-9._-]`. -/
def goodChar (c : Char) : Bool :=
  ('a' ≤ c && c ≤ 'z') || ('A' ≤ c && c ≤ 'Z') || ('0' ≤ c && c ≤ '9') ||
    c == '.' || c == '_' || c == '-'

/-- Scanner for `re.sub(r"[^a-zA-Z0-9._-]+", "_", s)`: each maximal run of
disallowed characters is replaced by a single underscore.  The flag records
whether the previous character was part of such a run. -/
def subAux : Bool → List Char → List Char
  | _, [] => []
  | inRun, c :: rest =>
    if goodChar c then c :: subAux false rest
    else if inRun then subAux true rest
    else '_' :: subAux true rest

/-- `re.sub(r"[^a-zA-Z0-9._-]+", "_", s)` on an already stripped string. -/
def subBadRuns (s : PyStr) : PyStr := subAux false s

/-- `safe_filename` from the source: strip, replace runs of disallowed
characters by `_`, and truncate to 180 characters. -/
def safe_filename (s : PyStr) : PyStr :=
  if (subBadRuns (pyStrip s)).length > 180 then (subBadRuns (pyStrip s)).take 180
  else subBadRuns (pyStrip s)

/-- `QuerySpec` dataclass from the source. -/
structure QuerySpec where
  type : PyStr
  view : Option PyStr := none
  cls : Option Int := none
  extra_params : Option (List (PyStr × PyStr)) := none
deriving DecidableEq, Repr

/-- The fixed base URL, templated with the player id
(`BASE.format(player_id=player_id)`). -/
def BASE (player_id : Int) : PyStr :=
  pyStr "https://stats.espncricinfo.com/ci/engine/player/" ++
    intToDecimal player_id ++ pyStr ".html"

/-- One `k=v` query-string component. -/
def paramEntry (kv : PyStr × PyStr) : PyStr := kv.1 ++ pyStr "=" ++ kv.2

/-- The local `params` list of `make_url`: class when present, then
`template=results`, then `type`, then `view` when truthy, then the extra
parameters in insertion order. -/
def urlParams (sp : QuerySpec) : List (PyStr × PyStr) :=
  (match sp.cls with
   | some c => [(pyStr "class", intToDecimal c)]
   | none => []) ++
  [(pyStr "template", pyStr "results"), (pyStr "type", sp.type)] ++
  (match sp.view with
   | some v => if v.isEmpty then [] else [(pyStr "view", v)]
   | none => []) ++
  (match sp.extra_params with
   | some l => l
   | none => [])

/-- `make_url` from the source: join the `k=v` entries of the parameter list
with `;` and append them to the templated base path. -/
def make_url (player_id : Int) (sp : QuerySpec) : PyStr :=
  BASE player_id ++ pyStr "?" ++
    List.intercalate (pyStr ";") ((urlParams sp).map paramEntry)

/-- The query-parameter sequence as the specification words it: `class=<c>`
first when the format class is set, then `template=results`, the category,
the sub-view when present (a set, non-empty sub-view, matching the code's
truthiness test), and the extra parameters in insertion order. -/
def queryParamsFromClaim (sp : QuerySpec) : List PyStr :=
  (match sp.cls with
   | some c => [pyStr "class=" ++ intToDecimal c]
   | none => []) ++
  [pyStr "template=results", pyStr "type=" ++ sp.type] ++
  (match sp.view with
   | some v => if v.isEmpty then [] else [pyStr "view=" ++ v]
   | none => []) ++
  (match sp.extra_params with
   | some l => l.map (fun kv => kv.1 ++ pyStr "=" ++ kv.2)
   | none => [])

/-- A data-frame cell: missing (`NaN`), a string, or an integer. -/
inductive Cell where
  | na : Cell
  | str : PyStr → Cell
  | int : Int → Cell
deriving DecidableEq, Repr

/-- Is the cell missing? -/
def cellIsNa : Cell → Bool
  | Cell.na => true
  | _ => false

/-- A pandas data frame: column labels plus rows of cells. -/
structure DF where
  header : List PyStr
  rows : List (List Cell)
deriving DecidableEq, Repr

/-- `enumerate(l, start=i)`: pair each element with its index, starting at
`i`. -/
def enum1 (i : Nat) : List α → List (Nat × α)
  | [] => []
  | a :: l => (i, a) :: enum1 (i + 1) l

/-- Keep the elements whose position satisfies `keep` (used to model dropping
data-frame columns by index). -/
def selectIdx (keep : Nat → Bool) (l : List α) : List α :=
  (enum1 0 l).filterMap (fun p => if keep p.1 then some p.2 else none)

/-- Column `j` is missing in every row. -/
def colAllNa (rows : List (List Cell)) (j : Nat) : Bool :=
  rows.all (fun r => cellIsNa (r.getD j Cell.na))

/-- `df.dropna(axis=1, how="all")`: drop the columns that are missing in every
row. -/
def dropNaCols (df : DF) : DF :=
  let keep : Nat → Bool := fun j => ! colAllNa df.rows j
  ⟨selectIdx keep df.header, df.rows.map (selectIdx keep)⟩

/-- `df.dropna(axis=0, how="all")`: drop the rows that are missing in every
remaining column. -/
def dropNaRows (df : DF) : DF :=
  ⟨df.header, df.rows.filter (fun r => ! r.all cellIsNa)⟩

/-- The per-table body of the loop in `read_tables_from_html`: drop all-empty
columns, then all-empty rows, and discard the table when either dimension
becomes zero. -/
def cleanDF (df : DF) : Option DF :=
  if (dropNaRows (dropNaCols df)).rows.length = 0 ∨
      (dropNaRows (dropNaCols df)).header.length = 0 then none
  else some (dropNaRows (dropNaCols df))

/-- `read_tables_from_html` from the source, with the external libraries as
oracles: `stripD` is the `re.sub` removing a leading DOCTYPE and `readHtml`
is `pandas.read_html` (which, per the source's contract, returns an empty
list when the markup holds no tables). -/
def read_tables_from_html (readHtml : PyStr → List DF) (stripD : PyStr → PyStr)
    (html : PyStr) : List DF :=
  (readHtml (stripD html)).filterMap cleanDF

/-- `df.insert(0, name, v)`: prepend a constant column. -/
def insertCol (df : DF) (name : PyStr) (v : Cell) : DF :=
  ⟨name :: df.header, df.rows.map (fun r => v :: r)⟩

/-- The loop body of `normalize_tables`: attach the metadata columns (each
`insert` at position 0, so later metadata entries end up further left), then
the 1-based table ordinal as the leftmost column. -/
def normOne (meta : List (PyStr × PyStr)) (i : Nat) (df : DF) : DF :=
  insertCol (meta.foldl (fun d kv => insertCol d kv.1 (Cell.str kv.2)) df)
    (pyStr "_table_index") (Cell.int (Int.ofNat i))

/-- The `for i, df in enumerate(dfs, start=1)` loop of `normalize_tables`. -/
def normAux (meta : List (PyStr × PyStr)) : Nat → List DF → List DF
  | _, [] => []
  | i, df :: rest => normOne meta i df :: normAux meta (i + 1) rest

/-- `normalize_tables` from the source. -/
def normalize_tables (dfs : List DF) (meta : List (PyStr × PyStr)) : List DF :=
  normAux meta 1 dfs

/-- `save_tables` from the source: the list of paths written, one per table,
`os.path.join(out_dir, safe_filename(f"{base_name}__table{i}.csv"))`. -/
def save_tables (tables : List DF) (out_dir : PyStr) (base_name : PyStr) :
    List PyStr :=
  (enum1 1 tables).map (fun p =>
    out_dir ++ pyStr "/" ++
      safe_filename (base_name ++ pyStr "__table" ++ natDigits p.1 ++ pyStr ".csv"))

/-- The sheet name `write_excel_book` computes for table `i` (1-based) of a
page key that produced `n` tables: the sanitized key truncated to 25
characters, suffixed with `_{i}` when `n > 1`, and finally truncated to 31
characters. -/
def sheetName (key : PyStr) (n : Nat) (i : Nat) : PyStr :=
  (if n > 1 then (safe_filename key).take 25 ++ pyStr "_" ++ natDigits i
   else (safe_filename key).take 25).take 31

/-- The sheets written for one page key. -/
def sheetsFor (key : PyStr) (dfs : List DF) : List (PyStr × DF) :=
  (enum1 1 dfs).map (fun p => (sheetName key dfs.length p.1, p.2))

/-- `write_excel_book` from the source, modelled as the ordered list of
(sheet name, table) pairs written to the workbook. -/
def write_excel_book (all_tables : List (PyStr × List DF)) : List (PyStr × DF) :=
  all_tables.flatMap (fun p => sheetsFor p.1 p.2)

/-- Strict lexicographic comparison of Python strings (code-point order). -/
def lexLt : List Char → List Char → Bool
  | [], [] => false
  | [], _ :: _ => true
  | _ :: _, [] => false
  | a :: as, b :: bs => if a < b then true else if b < a then false else lexLt as bs

/-- Python `<=` on `(str, str)` pairs, as `sorted` compares `dict.items()`. -/
def pairLe (a b : PyStr × PyStr) : Bool :=
  lexLt a.1 b.1 || (a.1 == b.1 && (lexLt a.2 b.2 || a.2 == b.2))

/-- Stable insertion into a sorted list (equal keys keep first-seen order). -/
def insertPair (a : PyStr × PyStr) : List (PyStr × PyStr) → List (PyStr × PyStr)
  | [] => [a]
  | b :: t => if pairLe a b then a :: b :: t else b :: insertPair a t

/-- Python `sorted` on a list of `(str, str)` pairs (stable). -/
def sortPairs (l : List (PyStr × PyStr)) : List (PyStr × PyStr) :=
  l.foldr insertPair []

/-- The de-duplication key of a spec:
`(sp.type, sp.view, sp.cls, tuple(sorted((sp.extra_params or ()).items())))`. -/
def specKey (sp : QuerySpec) :
    PyStr × Option PyStr × Option Int × List (PyStr × PyStr) :=
  (sp.type, sp.view, sp.cls,
    sortPairs (match sp.extra_params with | some l => l | none => []))

/-- The de-duplication loop of `build_default_specs`: keep a spec only when
its key was not seen before. -/
def dedupAux (seen : List (PyStr × Option PyStr × Option Int × List (PyStr × PyStr))) :
    List QuerySpec → List QuerySpec
  | [] => []
  | sp :: rest =>
    if specKey sp ∈ seen then dedupAux seen rest
    else sp :: dedupAux (specKey sp :: seen) rest

/-- `classes_to_try = [1, 2, 3, 4, 5, 6]` from the source. -/
def classes_to_try : List Int := [1, 2, 3, 4, 5, 6]

/-- The six core specs appended for one format class. -/
def coreSpecs (c : Int) : List QuerySpec :=
  [⟨pyStr "batting", some (pyStr "innings"), some c, none⟩,
   ⟨pyStr "batting", some (pyStr "results"), some c, none⟩,
   ⟨pyStr "bowling", some (pyStr "innings"), some c, none⟩,
   ⟨pyStr "bowling", some (pyStr "results"), some c, none⟩,
   ⟨pyStr "fielding", some (pyStr "results"), some c, none⟩,
   ⟨pyStr "fielding", some (pyStr "dismissal_summary"), some c, none⟩]

/-- `extra_views = ["career", "match", "series"]` from the source. -/
def extraViews : List PyStr := [pyStr "career", pyStr "match", pyStr "series"]

/-- The full enumeration of `build_default_specs` before de-duplication: the
core loop over classes, then the extra-views loop. -/
def rawSpecs : List QuerySpec :=
  classes_to_try.flatMap coreSpecs ++
    classes_to_try.flatMap (fun c =>
      extraViews.flatMap (fun v =>
        [⟨pyStr "batting", some v, some c, none⟩,
         ⟨pyStr "bowling", some v, some c, none⟩,
         ⟨pyStr "fielding", some v, some c, none⟩]))

/-- `build_default_specs` from the source: the enumeration, de-duplicated by
`specKey` keeping first occurrences. -/
def build_default_specs : List QuerySpec := dedupAux [] rawSpecs

/-- The page key the orchestrator derives for one spec:
`f"type={spec.type}__view={spec.view or 'none'}__class={spec.cls or 'none'}"`
(Python `or` substitutes `'none'` for a missing or falsy component, i.e. a
`None` or empty view and a `None` or zero class). -/
def pageKey (sp : QuerySpec) : PyStr :=
  pyStr "type=" ++ sp.type ++ pyStr "__view=" ++
    (match sp.view with
     | some v => if v.isEmpty then pyStr "none" else v
     | none => pyStr "none") ++
  pyStr "__class=" ++
    (match sp.cls with
     | some c => if c = 0 then pyStr "none" else intToDecimal c
     | none => pyStr "none")

/-- The metadata mapping built in `main` for one fetched page. -/
def metaOf (url title : PyStr) (sp : QuerySpec) : List (PyStr × PyStr) :=
  [(pyStr "_url", url), (pyStr "_title", title), (pyStr "_type", sp.type),
   (pyStr "_view", match sp.view with | some v => v | none => []),
   (pyStr "_class", match sp.cls with | some c => intToDecimal c | none => [])]

/-- Outcome of one `session.get`: either a response with a status code and a
body, or a transport-level exception raised before any response exists. -/
inductive FetchOutcome where
  | response : Nat → PyStr → FetchOutcome
  | transportError : PyStr → FetchOutcome

/-- Observable effect of one `fetch_html` call: the returned body or raised
message, together with how many times `time.sleep` ran. -/
structure FetchEff where
  result : Except PyStr PyStr
  sleeps : Nat

/-- The `RuntimeError` message for a non-200 response:
`f"HTTP {r.status_code} for {url}\nFirst 300 chars:\n{r.text[:300]}"`. -/
def httpErrMsg (status : Nat) (body : PyStr) (url : PyStr) : PyStr :=
  pyStr "HTTP " ++ natDigits status ++ pyStr " for " ++ url ++
    pyStr "\nFirst 300 chars:\n" ++ body.take 300

/-- `fetch_html` from the source.  `session.get` runs first; a transport
error raised there propagates before the `time.sleep` line runs, so no sleep
happens on that path.  When a response arrives, the sleep runs, and then a
non-200 status raises `RuntimeError`. -/
def fetch_html (outcome : FetchOutcome) (url : PyStr) : FetchEff :=
  match outcome with
  | FetchOutcome.transportError m => ⟨Except.error m, 0⟩
  | FetchOutcome.response s body =>
    if s = 200 then ⟨Except.ok body, 1⟩
    else ⟨Except.error (httpErrMsg s body url), 1⟩

/-- The environment of one run: the oracles for the external libraries
(`session.get` indexed by request number, `pandas.read_html`, the DOCTYPE
`re.sub`, the BeautifulSoup page title) plus the CLI arguments. -/
structure RunCfg where
  fetch : Nat → FetchOutcome
  readHtml : PyStr → List DF
  stripD : PyStr → PyStr
  titleOf : PyStr → PyStr
  pid : Int
  out_dir : PyStr

/-- The mutable state of `main`'s loop: the `all_tables` dict (as an ordered
association list), the `failures` list, and the CSV paths written so far. -/
structure RunState where
  all_tables : List (PyStr × List DF)
  failures : List (PyStr × PyStr)
  saved : List PyStr
deriving DecidableEq

/-- Python dict assignment `m[k] = v`: replace in place when the key exists,
append otherwise. -/
def dictInsert (m : List (PyStr × List DF)) (k : PyStr) (v : List DF) :
    List (PyStr × List DF) :=
  if m.any (fun p => p.1 == k) then
    m.map (fun p => if p.1 == k then (k, v) else p)
  else m ++ [(k, v)]

/-- One iteration of `main`'s loop over the specs: fetch, and on an exception
record `(url, message)` and continue; on success extract tables, skip the
spec when none survive, otherwise normalize, record under the page key and
save the CSVs. -/
def processSpec (cfg : RunCfg) (st : RunState) (i : Nat) (sp : QuerySpec) :
    RunState :=
  match (fetch_html (cfg.fetch i) (make_url cfg.pid sp)).result with
  | Except.error e =>
    ⟨st.all_tables, st.failures ++ [(make_url cfg.pid sp, e)], st.saved⟩
  | Except.ok html =>
    if (read_tables_from_html cfg.readHtml cfg.stripD html).isEmpty then st
    else
      ⟨dictInsert st.all_tables (pageKey sp)
         (normalize_tables (read_tables_from_html cfg.readHtml cfg.stripD html)
           (metaOf (make_url cfg.pid sp) (cfg.titleOf html) sp)),
       st.failures,
       st.saved ++ save_tables
         (normalize_tables (read_tables_from_html cfg.readHtml cfg.stripD html)
           (metaOf (make_url cfg.pid sp) (cfg.titleOf html) sp))
         cfg.out_dir (pageKey sp)⟩

/-- `main`'s loop, threading the request counter and the state. -/
def runAux (cfg : RunCfg) : Nat → RunState → List QuerySpec → RunState
  | _, st, [] => st
  | i, st, sp :: rest => runAux cfg (i + 1) (processSpec cfg st i sp) rest

/-- The whole orchestrator run over a list of specs. -/
def mainRun (cfg : RunCfg) (specs : List QuerySpec) : RunState :=
  runAux cfg 0 ⟨[], [], []⟩ specs

/-- The failure record one spec contributes, as the specification describes
it: none for a 200 response, `(url, diagnostic)` for any other status, and
`(url, transport message)` for a transport-level failure. -/
def failRecordFromClaim (cfg : RunCfg) (p : Nat × QuerySpec) :
    Option (PyStr × PyStr) :=
  match cfg.fetch p.1 with
  | FetchOutcome.response s b =>
    if s = 200 then none
    else some (make_url cfg.pid p.2, httpErrMsg s b (make_url cfg.pid p.2))
  | FetchOutcome.transportError m => some (make_url cfg.pid p.2, m)

/-- A page key of the shape the orchestrator produces (35 characters, so its
sanitized form is longer than the 25-character sheet-name truncation). -/
def exKey : PyStr := pyStr "type=batting__view=innings__class=1"

/-- A trivial table used where the table contents do not matter. -/
def exDF : DF := ⟨[], []⟩

/-- A parsed 3-by-3 table whose middle row and middle column are entirely
empty (the extractor scenario from the specification). -/
def exRaw : DF :=
  ⟨[pyStr "a", pyStr "b", pyStr "c"],
   [[Cell.str (pyStr "x"), Cell.na, Cell.str (pyStr "y")],
    [Cell.na, Cell.na, Cell.na],
    [Cell.str (pyStr "z"), Cell.na, Cell.str (pyStr "w")]]⟩

/-- `exRaw` after dropping its all-empty column and all-empty row. -/
def exClean : DF :=
  ⟨[pyStr "a", pyStr "c"],
   [[Cell.str (pyStr "x"), Cell.str (pyStr "y")],
    [Cell.str (pyStr "z"), Cell.str (pyStr "w")]]⟩

/-- A concrete run environment whose single fetch answers 200 with a body
that parses to no tables. -/
def wCfg : RunCfg :=
  ⟨fun _ => FetchOutcome.response 200 [], fun _ => [], fun h => h, fun h => h,
   625371, pyStr "out"⟩

/-- A concrete spec (the first one the enumerator produces). -/
def wSpec : QuerySpec := ⟨pyStr "batting", some (pyStr "innings"), some 1, none⟩

/-- Decidable form of the C10 invariant for a single spec: a set, non-empty
sub-view, a class among 1..6, no extra parameters, and a page key of the
exact `type=..__view=..__class=..` shape with no `none` placeholder. -/
def specInv (sp : QuerySpec) : Bool :=
  match sp.view, sp.cls with
  | some v, some c =>
      (!v.isEmpty) && (c == 1 || c == 2 || c == 3 || c == 4 || c == 5 || c == 6) &&
      sp.extra_params == none &&
      pageKey sp ==
        pyStr "type=" ++ sp.type ++ pyStr "__view=" ++ v ++ pyStr "__class=" ++
          intToDecimal c
  | _, _ => false

theorem paramEntry_class (c : Int) :
    paramEntry (pyStr "class", intToDecimal c) = pyStr "class=" ++ intToDecimal c := by
  unfold paramEntry
  rw [(by decide : pyStr "class" ++ pyStr "=" = pyStr "class=")]

theorem paramEntry_template :
    paramEntry (pyStr "template", pyStr "results") = pyStr "template=results" := by decide

theorem paramEntry_type (t : PyStr) :
    paramEntry (pyStr "type", t) = pyStr "type=" ++ t := by
  unfold paramEntry
  rw [(by decide : pyStr "type" ++ pyStr "=" = pyStr "type=")]

theorem paramEntry_view (v : PyStr) :
    paramEntry (pyStr "view", v) = pyStr "view=" ++ v := by
  unfold paramEntry
  rw [(by decide : pyStr "view" ++ pyStr "=" = pyStr "view=")]

theorem urlParams_map_paramEntry (sp : QuerySpec) :
    (urlParams sp).map paramEntry = queryParamsFromClaim sp := by
  obtain ⟨t, view, cls, ex⟩ := sp
  cases cls <;> cases view <;> cases ex <;>
    simp only [urlParams, queryParamsFromClaim, List.map_append, List.map_cons,
      List.map_nil, apply_ite (List.map paramEntry), paramEntry_class,
      paramEntry_template, paramEntry_type, paramEntry_view] <;> rfl

/-- C1: for every player identifier and every `QuerySpec`, the URL built by
`make_url` is the base path plus a query string whose parameters are, in
order: `class=<c>` when the format class is set, then `template=results`,
then `type=<category>`, then `view=<v>` when the sub-view is present (set
and non-empty, matching the code's truthiness test), then the extra
parameters in insertion order — joined with `;` (so never with `&`); its
first parameter is `class=<c>` when the class is set and `template=results`
otherwise. -/
theorem claim_C1 (pid : Int) (sp : QuerySpec) :
    make_url pid sp =
      BASE pid ++ pyStr "?" ++
        List.intercalate (pyStr ";") (queryParamsFromClaim sp) ∧
    (queryParamsFromClaim sp).head? =
      some (match sp.cls with
            | some c => pyStr "class=" ++ intToDecimal c
            | none => pyStr "template=results") := by
  constructor
  · unfold make_url
    rw [urlParams_map_paramEntry]
  · unfold queryParamsFromClaim
    cases sp.cls <;> simp

/-- C6 counterexample: when `session.get` raises at the transport level, the
exception propagates before the `time.sleep` line runs, so no sleep is
performed — contradicting the claim that the delay applies to that case
too. -/
theorem counter_C6 :
    (fetch_html (FetchOutcome.transportError (pyStr "connection reset"))
        (pyStr "http://example")).sleeps = 0 := rfl

/-- C6 as amended: the inter-request sleep runs exactly once after any
received response — whether its status is 200 or not — but does not run when
the request fails at the transport level before a response exists. -/
theorem claim_C6_amended :
    (∀ (s : Nat) (b url : PyStr),
        (fetch_html (FetchOutcome.response s b) url).sleeps = 1) ∧
    (∀ (m url : PyStr),
        (fetch_html (FetchOutcome.transportError m) url).sleeps = 0) := by
  constructor
  · intro s b url
    unfold fetch_html
    by_cases h : s = 200 <;> simp [h]
  · intro m url
    rfl

theorem subAux_good (l : List Char) : ∀ flag : Bool, (subAux flag l).all goodChar = true := by
  induction l with
  | nil => intro flag; rfl
  | cons c rest ih =>
    intro flag
    unfold subAux
    by_cases h : goodChar c
    · simp [h, ih false]
    · by_cases hf : flag <;>
        simp [h, hf, ih true, (by decide : goodChar '_' = true)]

theorem all_take_of_all {p : α → Bool} {l : List α} (h : l.all p = true) (n : Nat) :
    (l.take n).all p = true := by
  rw [List.all_eq_true] at h ⊢
  intro x hx
  exact h x (List.take_subset n l hx)

theorem safe_filename_all_good (s : PyStr) : (safe_filename s).all goodChar = true := by
  unfold safe_filename subBadRuns
  split
  · exact all_take_of_all (subAux_good (pyStrip s) false) 180
  · exact subAux_good (pyStrip s) false

theorem safe_filename_length_le (s : PyStr) : (safe_filename s).length ≤ 180 := by
  unfold safe_filename
  split
  · rw [List.length_take]
    exact min_le_left 180 _
  · omega

/-- C9: the exporter's sanitizer produces only characters from
`[A-Za-z0-9._-]` and at most 180 of them; consequently every path
`save_tables` writes is at most the output-directory length plus the
separator plus 180 characters (the sanitizer is applied to the whole
`{base}__table{i}.csv` name, suffix included). -/
theorem claim_C9 :
    (∀ s : PyStr,
        (safe_filename s).all goodChar = true ∧ (safe_filename s).length ≤ 180) ∧
    ∀ (tables : List DF) (out_dir base_name p : PyStr),
      p ∈ save_tables tables out_dir base_name →
      p.length ≤ out_dir.length + 1 + 180 := by
  constructor
  · intro s
    exact ⟨safe_filename_all_good s, safe_filename_length_le s⟩
  · intro tables out_dir base_name p hp
    unfold save_tables at hp
    rw [List.mem_map] at hp
    obtain ⟨q, _, rfl⟩ := hp
    have h1 := safe_filename_length_le
      (base_name ++ pyStr "__table" ++ natDigits q.1 ++ pyStr ".csv")
    simp only [List.length_append]
    have h2 : (pyStr "/").length = 1 := rfl
    omega

/-- Witness for C9 at a concrete table list, directory and base name. -/
theorem claim_C9_witness :
    (pyStr "out" ++ pyStr "/" ++
        safe_filename (exKey ++ pyStr "__table" ++ natDigits 1 ++ pyStr ".csv")).length ≤
      (pyStr "out").length + 1 + 180 :=
  claim_C9.2 [exDF] (pyStr "out") exKey _ (by decide)

/-- C5: the list `build_default_specs` returns has pairwise distinct
de-duplication keys `(category, sub_view, format_class, sorted extras)`; in
fact the enumeration contains no duplicates at all, so the de-duplication
pass returns the enumeration unchanged — hence the first occurrence of each
tuple is kept in first-seen order.  Determinism is definitional: the
function is pure and takes no input. -/
theorem claim_C5 :
    (build_default_specs.map specKey).Nodup ∧ build_default_specs = rawSpecs := by
  constructor
  · decide
  · decide

theorem build_default_specs_all_inv : build_default_specs.all specInv = true := by
  decide

/-- C10: every spec the enumerator returns has a set, non-empty sub-view, a
format class among 1..6, and no extra parameters; hence the page key the
orchestrator derives for it has the exact shape
`type=<category>__view=<sub_view>__class=<digit>`, and the `none`
placeholder (emitted for a missing or falsy view or class) never appears. -/
theorem claim_C10 :
    ∀ sp ∈ build_default_specs, ∃ (v : PyStr) (c : Int),
      sp.view = some v ∧ v ≠ [] ∧ sp.cls = some c ∧
      (c = 1 ∨ c = 2 ∨ c = 3 ∨ c = 4 ∨ c = 5 ∨ c = 6) ∧
      sp.extra_params = none ∧
      pageKey sp =
        pyStr "type=" ++ sp.type ++ pyStr "__view=" ++ v ++ pyStr "__class=" ++
          intToDecimal c := by
  intro sp hsp
  have h : specInv sp = true :=
    List.all_eq_true.1 build_default_specs_all_inv sp hsp
  obtain ⟨t, view, cls, ex⟩ := sp
  cases view with
  | none => simp [specInv] at h
  | some v =>
    cases cls with
    | none => simp [specInv] at h
    | some c =>
      simp only [specInv, Bool.and_eq_true, Bool.or_eq_true, beq_iff_eq,
        Bool.not_eq_true'] at h
      obtain ⟨⟨⟨hne, hcls⟩, hex⟩, hkey⟩ := h
      refine ⟨v, c, rfl, ?_, rfl, ?_, hex, hkey⟩
      · intro hcon
        subst hcon
        simp at hne
      · tauto

/-- Witness for C10 at the first spec the enumerator produces. -/
theorem claim_C10_witness :
    ∃ (v : PyStr) (c : Int),
      wSpec.view = some v ∧ v ≠ [] ∧ wSpec.cls = some c ∧
      (c = 1 ∨ c = 2 ∨ c = 3 ∨ c = 4 ∨ c = 5 ∨ c = 6) ∧
      wSpec.extra_params = none ∧
      pageKey wSpec =
        pyStr "type=" ++ wSpec.type ++ pyStr "__view=" ++ v ++ pyStr "__class=" ++
          intToDecimal c :=
  claim_C10 wSpec (by decide)

/-- C4: the extractor's cleaning loop drops the all-empty columns first and
the all-empty rows second, discarding a table whose resulting dimensions hit
zero; so every surviving table has a nonzero number of rows and columns and
no all-empty row, markup with no tables yields the empty sequence rather
than an error, and on the specification's concrete scenario (a table with
one fully empty row and one fully empty column) exactly that row and column
are removed. -/
theorem claim_C4 (readHtml : PyStr → List DF) (stripD : PyStr → PyStr)
    (html : PyStr) :
    (readHtml (stripD html) = [] → read_tables_from_html readHtml stripD html = []) ∧
    (∀ df ∈ read_tables_from_html readHtml stripD html,
      df.rows.length ≠ 0 ∧ df.header.length ≠ 0 ∧
        df.rows.all (fun r => ! r.all cellIsNa) = true) ∧
    read_tables_from_html (fun _ => [exRaw]) (fun h => h) [] = [exClean] := by
  refine ⟨?_, ?_, by decide⟩
  · intro h
    unfold read_tables_from_html
    rw [h]
    rfl
  · intro df hdf
    unfold read_tables_from_html at hdf
    rw [List.mem_filterMap] at hdf
    obtain ⟨a, _, ha⟩ := hdf
    unfold cleanDF at ha
    split at ha
    · exact absurd ha (by simp)
    · rename_i hcond
      push_neg at hcond
      obtain ⟨hr, hh⟩ := hcond
      obtain rfl : dropNaRows (dropNaCols a) = df := Option.some_inj.1 ha
      refine ⟨hr, hh, ?_⟩
      rw [List.all_eq_true]
      intro r hr2
      have := List.mem_filter.1 hr2
      exact this.2

/-- Witness for C4 at a parser oracle that finds no tables. -/
theorem claim_C4_witness :
    read_tables_from_html (fun _ => []) (fun h => h) (pyStr "") = [] :=
  (claim_C4 (fun _ => []) (fun h => h) (pyStr "")).1 rfl

theorem foldl_insertCol (l : List (PyStr × PyStr)) (df : DF) :
    l.foldl (fun d kv => insertCol d kv.1 (Cell.str kv.2)) df =
      ⟨l.reverse.map Prod.fst ++ df.header,
       df.rows.map (fun r => l.reverse.map (fun kv => Cell.str kv.2) ++ r)⟩ := by
  induction l generalizing df with
  | nil => simp
  | cons kv t ih =>
    rw [List.foldl_cons, ih]
    simp [insertCol, List.map_map, Function.comp]

theorem normOne_eq (meta : List (PyStr × PyStr)) (i : Nat) (df : DF) :
    normOne meta i df =
      ⟨pyStr "_table_index" :: (meta.reverse.map Prod.fst ++ df.header),
       df.rows.map (fun r =>
         Cell.int (Int.ofNat i) ::
           (meta.reverse.map (fun kv => Cell.str kv.2) ++ r))⟩ := by
  unfold normOne
  rw [foldl_insertCol]
  simp [insertCol, List.map_map, Function.comp]

theorem normAux_length (meta : List (PyStr × PyStr)) :
    ∀ (i : Nat) (dfs : List DF), (normAux meta i dfs).length = dfs.length := by
  intro i dfs
  induction dfs generalizing i with
  | nil => rfl
  | cons df rest ih => simp [normAux, ih]

theorem normAux_get (meta : List (PyStr × PyStr)) (dfs : List DF) :
    ∀ (i j : Nat) (h : j < dfs.length) (h2 : j < (normAux meta i dfs).length),
      (normAux meta i dfs).get ⟨j, h2⟩ = normOne meta (i + j) (dfs.get ⟨j, h⟩) := by
  induction dfs with
  | nil =>
    intro i j h h2
    exact absurd h (by simp)
  | cons df rest ih =>
    intro i j h h2
    cases j with
    | zero => rfl
    | succ j' =>
      have h' : j' < rest.length := by simpa using h
      have h2' : j' < (normAux meta (i + 1) rest).length := by
        rw [normAux_length]; exact h'
      have := ih (i + 1) j' h' h2'
      rw [show (normAux meta i (df :: rest)).get ⟨j' + 1, h2⟩ =
            (normAux meta (i + 1) rest).get ⟨j', h2'⟩ from rfl, this,
        show i + 1 + j' = i + (j' + 1) from by omega]
      rfl

/-- C3: with a 5-entry metadata mapping, each table `normalize_tables`
produces keeps its input's row count, gains exactly 6 leading columns (the
1-based local ordinal plus the 5 metadata fields), carries the same constant
metadata prefix on every row of a given table, and tables stay in input
order with ordinal `j + 1` at position `j`. -/
theorem claim_C3 (dfs : List DF) (meta : List (PyStr × PyStr))
    (h5 : meta.length = 5) :
    (normalize_tables dfs meta).length = dfs.length ∧
    ∀ (j : Nat) (hj : j < dfs.length) (hj2 : j < (normalize_tables dfs meta).length),
      ((normalize_tables dfs meta).get ⟨j, hj2⟩).header.length =
        (dfs.get ⟨j, hj⟩).header.length + 6 ∧
      ((normalize_tables dfs meta).get ⟨j, hj2⟩).rows.length =
        (dfs.get ⟨j, hj⟩).rows.length ∧
      ((normalize_tables dfs meta).get ⟨j, hj2⟩).rows =
        (dfs.get ⟨j, hj⟩).rows.map (fun r =>
          (Cell.int (Int.ofNat (j + 1)) ::
            meta.reverse.map (fun kv => Cell.str kv.2)) ++ r) := by
  refine ⟨normAux_length meta 1 dfs, ?_⟩
  intro j hj hj2
  unfold normalize_tables at hj2 ⊢
  rw [normAux_get meta dfs 1 j hj hj2, normOne_eq,
    show 1 + j = j + 1 from by omega]
  refine ⟨?_, by simp, by simp⟩
  simp [h5]
  omega

/-- Witness for C3 at a concrete table and the orchestrator's metadata. -/
theorem claim_C3_witness :
    (normalize_tables [exRaw] (metaOf (pyStr "u") (pyStr "t") wSpec)).length = 1 ∧
    ((normalize_tables [exRaw] (metaOf (pyStr "u") (pyStr "t") wSpec)).get
        ⟨0, by decide⟩).rows.length = exRaw.rows.length := by
  refine ⟨(claim_C3 [exRaw] (metaOf (pyStr "u") (pyStr "t") wSpec) rfl).1, ?_⟩
  exact ((claim_C3 [exRaw] (metaOf (pyStr "u") (pyStr "t") wSpec) rfl).2 0
    (by decide) (by decide)).2.1

/-- C7 counterexample: for the 35-character page key
`type=batting__view=innings__class=1` with exactly one table, the workbook
sheet is named from the sanitized key truncated to 25 characters, not to 31
characters as the claim states (the trailing 31-character truncation is a
no-op after the 25-character one). -/
theorem counter_C7 :
    (write_excel_book [(exKey, [exDF])]).map Prod.fst ≠
        [(safe_filename exKey).take 31] ∧
    (write_excel_book [(exKey, [exDF])]).map Prod.fst =
        [(safe_filename exKey).take 25] := by
  constructor
  · decide
  · decide

/-- C7 as amended: a page key that produced exactly one table is written to a
sheet named from the sanitized page key truncated to 25 characters (the
final 31-character truncation never shortens it further). -/
theorem claim_C7_amended (m : List (PyStr × List DF)) (k : PyStr) (df : DF)
    (hm : (k, [df]) ∈ m) :
    ((safe_filename k).take 25, df) ∈ write_excel_book m := by
  unfold write_excel_book
  rw [List.mem_flatMap]
  refine ⟨(k, [df]), hm, ?_⟩
  have h : sheetName k 1 1 = (safe_filename k).take 25 := by
    unfold sheetName
    rw [if_neg (by omega), List.take_take]
    norm_num
  simp [sheetsFor, enum1, h]

/-- Witness for the amended C7 at a concrete one-table mapping. -/
theorem claim_C7_witness :
    ((safe_filename exKey).take 25, exDF) ∈ write_excel_book [(exKey, [exDF])] :=
  claim_C7_amended [(exKey, [exDF])] exKey exDF (List.mem_singleton.mpr rfl)

theorem digitsVal_append (l : List Char) (c : Char) :
    digitsVal (l ++ [c]) = 10 * digitsVal l + digitVal c := by
  unfold digitsVal
  rw [List.foldl_append]
  rfl

theorem digitVal_digitChar : ∀ d : Nat, d < 10 → digitVal (digitChar d) = d := by
  decide

theorem natDigitsAux_val :
    ∀ (fuel n : Nat), n < fuel → digitsVal (natDigitsAux fuel n) = n := by
  intro fuel
  induction fuel with
  | zero => intro n h; omega
  | succ f ih =>
    intro n h
    unfold natDigitsAux
    by_cases h10 : n < 10
    · rw [if_pos h10]
      show digitsVal [digitChar n] = n
      unfold digitsVal
      simp [digitVal_digitChar n h10]
    · rw [if_neg h10, digitsVal_append]
      have hd : n / 10 < f := by
        have := Nat.div_lt_self (by omega : 0 < n) (by norm_num : 1 < 10)
        omega
      rw [ih (n / 10) hd,
        digitVal_digitChar (n % 10) (Nat.mod_lt n (by norm_num))]
      omega

theorem digitsVal_natDigits (n : Nat) : digitsVal (natDigits n) = n :=
  natDigitsAux_val (n + 1) n (Nat.lt_succ_self n)

theorem natDigits_inj {a b : Nat} (h : natDigits a = natDigits b) : a = b := by
  have ha := digitsVal_natDigits a
  rw [h, digitsVal_natDigits b] at ha
  omega

theorem natDigitsAux_length :
    ∀ (fuel k n : Nat), n < fuel → n < 10 ^ k →
      (natDigitsAux fuel n).length ≤ max 1 k := by
  intro fuel
  induction fuel with
  | zero => intro k n h; omega
  | succ f ih =>
    intro k n h hk
    unfold natDigitsAux
    by_cases h10 : n < 10
    · rw [if_pos h10]
      simp
    · rw [if_neg h10, List.length_append]
      have hk2 : 2 ≤ k := by
        by_contra hcon
        push_neg at hcon
        interval_cases k
        · simp_all
        · simp_all
          omega
      have hd : n / 10 < f := by
        have := Nat.div_lt_self (by omega : 0 < n) (by norm_num : 1 < 10)
        omega
      have hdk : n / 10 < 10 ^ (k - 1) := by
        rw [Nat.div_lt_iff_lt_mul (by norm_num : (0 : Nat) < 10)]
        have hp : 10 ^ (k - 1) * 10 = 10 ^ k := by
          rw [← pow_succ]
          congr 1
          omega
        omega
      have hrec := ih (k - 1) (n / 10) hd hdk
      rw [Nat.max_eq_right (by omega : 1 ≤ k - 1)] at hrec
      rw [Nat.max_eq_right (by omega : 1 ≤ k)]
      simp only [List.length_cons, List.length_nil]
      omega

theorem natDigits_length_le5 {i : Nat} (h : i ≤ 99999) :
    (natDigits i).length ≤ 5 := by
  have := natDigitsAux_length (i + 1) 5 i (Nat.lt_succ_self i)
    (by norm_num; omega : i < 10 ^ 5)
  simpa using this

theorem enum1_mem_bound (l : List α) :
    ∀ (i : Nat) (p : Nat × α), p ∈ enum1 i l → i ≤ p.1 ∧ p.1 < i + l.length := by
  induction l with
  | nil =>
    intro i p h
    simp [enum1] at h
  | cons a t ih =>
    intro i p h
    rcases List.mem_cons.1 h with rfl | h2
    · simp
    · have := ih (i + 1) p h2
      simp only [List.length_cons]
      omega

theorem nodup_map_enum1 (g : Nat → β) (l : List α) :
    ∀ i : Nat,
      (∀ a b, i ≤ a → a < i + l.length → i ≤ b → b < i + l.length →
        g a = g b → a = b) →
      ((enum1 i l).map (fun p => g p.1)).Nodup := by
  induction l with
  | nil => intro i _; exact List.nodup_nil
  | cons x t ih =>
    intro i hinj
    rw [show enum1 i (x :: t) = (i, x) :: enum1 (i + 1) t from rfl, List.map_cons,
      List.nodup_cons]
    constructor
    · intro hmem
      rw [List.mem_map] at hmem
      obtain ⟨p, hp, hgp⟩ := hmem
      have hb := enum1_mem_bound t (i + 1) p hp
      have hpe : p.1 = i := by
        refine hinj p.1 i (by omega) ?_ (by omega) (by simp) hgp
        simp only [List.length_cons]
        omega
      omega
    · refine ih (i + 1) ?_
      intro a b ha1 ha2 hb1 hb2
      refine hinj a b (by omega) ?_ (by omega) ?_ <;>
        simp only [List.length_cons] <;> omega

theorem sheetsFor_names_nodup (k : PyStr) (dfs : List DF)
    (hn : dfs.length ≤ 99999) :
    ((sheetsFor k dfs).map Prod.fst).Nodup := by
  unfold sheetsFor
  rw [List.map_map]
  show ((enum1 1 dfs).map (fun p => sheetName k dfs.length p.1)).Nodup
  by_cases h2 : dfs.length > 1
  · refine nodup_map_enum1 (sheetName k dfs.length) dfs 1 ?_
    intro a b ha1 ha2 hb1 hb2 heq
    unfold sheetName at heq
    rw [if_pos h2, if_pos h2] at heq
    have hsl : ((safe_filename k).take 25).length ≤ 25 := by
      rw [List.length_take]
      exact min_le_left _ _
    have hu : (pyStr "_").length = 1 := rfl
    have hla : (natDigits a).length ≤ 5 := natDigits_length_le5 (by omega)
    have hlb : (natDigits b).length ≤ 5 := natDigits_length_le5 (by omega)
    have hta : List.take 31 ((safe_filename k).take 25 ++ pyStr "_" ++ natDigits a) =
        (safe_filename k).take 25 ++ pyStr "_" ++ natDigits a :=
      List.take_of_length_le (by simp only [List.length_append]; omega)
    have htb : List.take 31 ((safe_filename k).take 25 ++ pyStr "_" ++ natDigits b) =
        (safe_filename k).take 25 ++ pyStr "_" ++ natDigits b :=
      List.take_of_length_le (by simp only [List.length_append]; omega)
    rw [hta, htb] at heq
    exact natDigits_inj (List.append_cancel_left heq)
  · rcases dfs with _ | ⟨d, _ | ⟨d2, rest⟩⟩
    · exact List.nodup_nil
    · simp [enum1]
    · simp at h2

/-- C8 as amended: every sheet name the workbook aggregator produces is at
most 31 characters long; and the names generated for one page key are
pairwise distinct provided that key produced at most 99999 tables (beyond
that, the final 31-character truncation can chop the distinguishing digits
of the `_{i}` suffix). -/
theorem claim_C8_amended (m : List (PyStr × List DF)) :
    (∀ s ∈ (write_excel_book m).map Prod.fst, s.length ≤ 31) ∧
    ∀ (k : PyStr) (dfs : List DF), (k, dfs) ∈ m → dfs.length ≤ 99999 →
      ((sheetsFor k dfs).map Prod.fst).Nodup := by
  constructor
  · intro s hs
    rw [List.mem_map] at hs
    obtain ⟨p, hp, rfl⟩ := hs
    unfold write_excel_book at hp
    rw [List.mem_flatMap] at hp
    obtain ⟨q, _, hq⟩ := hp
    unfold sheetsFor at hq
    rw [List.mem_map] at hq
    obtain ⟨r, _, rfl⟩ := hq
    show (sheetName q.1 q.2.length r.1).length ≤ 31
    unfold sheetName
    rw [List.length_take]
    exact min_le_left _ _
  · intro k dfs _ hn
    exact sheetsFor_names_nodup k dfs hn

/-- Witness for the amended C8 at a two-table mapping. -/
theorem claim_C8_witness :
    ((sheetsFor exKey [exDF, exDF]).map Prod.fst).Nodup :=
  (claim_C8_amended [(exKey, [exDF, exDF])]).2 exKey [exDF, exDF]
    (List.mem_singleton.mpr rfl) (by decide)

theorem write_excel_single (k : PyStr) (dfs : List DF) :
    (write_excel_book [(k, dfs)]).map Prod.fst =
      (enum1 1 dfs).map (fun p => sheetName k dfs.length p.1) := by
  unfold write_excel_book sheetsFor
  simp [List.map_map]

theorem enum1_replicate_mem (a : α) :
    ∀ (n i j : Nat), i ≤ j → j < i + n → (j, a) ∈ enum1 i (List.replicate n a) := by
  intro n
  induction n with
  | zero => intro i j h1 h2; omega
  | succ n ih =>
    intro i j h1 h2
    rw [List.replicate_succ]
    rcases Nat.eq_or_lt_of_le h1 with rfl | hlt
    · exact List.mem_cons_self _ _
    · exact List.mem_cons_of_mem _ (ih (i + 1) j (by omega) (by omega))

/-- C8 counterexample: with 100000 tables under the 35-character page key
`type=batting__view=innings__class=1`, tables 10000 and 100000 receive the
same 31-character sheet name (`..._10000`), so the names written to the
workbook are not pairwise distinct — the claim fails for this input
mapping. -/
theorem counter_C8 :
    ¬ ((write_excel_book [(exKey, List.replicate 100000 exDF)]).map
        Prod.fst).Nodup := by
  intro hnd
  rw [write_excel_single, List.length_replicate] at hnd
  have hinj := List.inj_on_of_nodup_map hnd
  have h1 : ((10000 : Nat), exDF) ∈ enum1 1 (List.replicate 100000 exDF) :=
    enum1_replicate_mem exDF 100000 1 10000 (by omega) (by omega)
  have h2 : ((100000 : Nat), exDF) ∈ enum1 1 (List.replicate 100000 exDF) :=
    enum1_replicate_mem exDF 100000 1 100000 (by omega) (by omega)
  have heq : sheetName exKey 100000 10000 = sheetName exKey 100000 100000 := by
    decide
  have := hinj h1 h2 heq
  simp at this

theorem fetch_html_result_200 (b url : PyStr) :
    (fetch_html (FetchOutcome.response 200 b) url).result = Except.ok b := rfl

theorem fetch_html_result_not200 (s : Nat) (b url : PyStr) (h : s ≠ 200) :
    (fetch_html (FetchOutcome.response s b) url).result =
      Except.error (httpErrMsg s b url) := by
  show (if s = 200 then (⟨Except.ok b, 1⟩ : FetchEff)
        else ⟨Except.error (httpErrMsg s b url), 1⟩).result =
      Except.error (httpErrMsg s b url)
  rw [if_neg h]

theorem fetch_html_result_transport (m url : PyStr) :
    (fetch_html (FetchOutcome.transportError m) url).result = Except.error m := rfl

theorem processSpec_failures (cfg : RunCfg) (st : RunState) (i : Nat)
    (sp : QuerySpec) :
    (processSpec cfg st i sp).failures =
      st.failures ++ (failRecordFromClaim cfg (i, sp)).toList := by
  unfold processSpec failRecordFromClaim
  cases cfg.fetch i with
  | transportError m =>
    rw [fetch_html_result_transport]
    simp
  | response s b =>
    by_cases h : s = 200
    · subst h
      rw [fetch_html_result_200]
      split
      · rename_i heq
        exact absurd heq (by simp)
      · rename_i heq
        injection heq with hh
        subst hh
        split <;> simp
    · rw [fetch_html_result_not200 s b _ h]
      simp [h]

theorem runAux_failures (cfg : RunCfg) :
    ∀ (specs : List QuerySpec) (i : Nat) (st : RunState),
      (runAux cfg i st specs).failures =
        st.failures ++ (enum1 i specs).filterMap (failRecordFromClaim cfg) := by
  intro specs
  induction specs with
  | nil => intro i st; simp [runAux, enum1]
  | cons sp rest ih =>
    intro i st
    show (runAux cfg (i + 1) (processSpec cfg st i sp) rest).failures = _
    rw [ih (i + 1), processSpec_failures,
      show enum1 i (sp :: rest) = (i, sp) :: enum1 (i + 1) rest from rfl,
      List.filterMap_cons]
    cases h : failRecordFromClaim cfg (i, sp) <;> simp [h]

theorem processSpec_skip (cfg : RunCfg) (st : RunState) (i : Nat)
    (sp : QuerySpec) (b : PyStr)
    (h200 : cfg.fetch i = FetchOutcome.response 200 b)
    (hemp : read_tables_from_html cfg.readHtml cfg.stripD b = []) :
    processSpec cfg st i sp = st := by
  unfold processSpec
  rw [h200]
  simp [fetch_html, hemp]

/-- C2: over any run, the recorded failures are exactly one `(url, message)`
record per spec whose fetch did not return HTTP 200 (a non-200 status yields
the `HTTP <status> for <url>` diagnostic with the first 300 characters of
the body, a transport failure yields its message), in spec order — so a 404
on one spec contributes exactly one record and later specs are still
processed; and a spec that fetches with status 200 but yields zero extracted
tables leaves the state untouched: no failure record and no table entry. -/
theorem claim_C2 (cfg : RunCfg) (specs : List QuerySpec) :
    (mainRun cfg specs).failures =
      (enum1 0 specs).filterMap (failRecordFromClaim cfg) ∧
    ∀ (st : RunState) (i : Nat) (sp : QuerySpec) (b : PyStr),
      cfg.fetch i = FetchOutcome.response 200 b →
      read_tables_from_html cfg.readHtml cfg.stripD b = [] →
      processSpec cfg st i sp = st := by
  constructor
  · unfold mainRun
    rw [runAux_failures]
    rfl
  · intro st i sp b h1 h2
    exact processSpec_skip cfg st i sp b h1 h2

/-- Witness for C2: a 200 response whose body parses to no tables leaves the
state unchanged. -/
theorem claim_C2_witness :
    processSpec wCfg ⟨[], [], []⟩ 0 wSpec = ⟨[], [], []⟩ :=
  (claim_C2 wCfg []).2 ⟨[], [], []⟩ 0 wSpec [] rfl rfl
